import Mathlib

/-!
Shallow embedding of `src/src/old_c/ST7735.c` (ST7735 TFT display driver):
the command-table sequencer (`commandList`), display geometry
(`_st7735_setAddrWindow`, `_st7735_setRotation`, `_st7735_initR`) and the
clipped drawing primitives (`_st7735_drawPixel`, `_st7735_drawFastHLine`,
`_st7735_drawFastVLine`, `_st7735_fillRect`, `_st7735_fillScreen`).

Bytes sent to the transport are modelled as an event trace.  C `int16_t`
coordinates become `Int`; C unsigned bytes become `Nat` with explicit
`% 256` at every `uint8_t` conversion, and `int16_t` narrowing is the
explicit `toI16`.  Global mutable state (`_width`, `_height`, `colstart`,
`rowstart`) becomes the record `St`, threaded explicitly.
-/

namespace ST7735

/-- One observable interaction with the transport port: a command byte, a
data byte, a millisecond delay, chip-select low, or the reset line
driven low/high. -/
inductive Ev where
  | cmd (b : Nat)
  | data (b : Nat)
  | sleep (ms : Nat)
  | cs0
  | rst0
  | rst1
  deriving DecidableEq, Repr

/-- Modelled from the spec: `ST7735.h` is not under `src/`; the native panel
width (the spec's class of panel fits coordinates in 8 bits, and the in-src
table `Rcmd2red` sets the column window end to `0x7F` = 127, so the native
width is 128). -/
def ST7735_TFTWIDTH : Nat := 128

/-- Modelled from the spec: native panel height (in-src table `Rcmd2red`
sets the row window end to `0x9F` = 159, so the native height is 160). -/
def ST7735_TFTHEIGHT : Nat := 160

/-- Modelled from the spec: controller opcode constants from the missing
`ST7735.h`; the values are the controller's standard command codes.  The
claims use them only symbolically (distinctness matters, exact values do
not). -/
def ST7735_SWRESET : Nat := 0x01
def ST7735_SLPOUT : Nat := 0x11
def ST7735_NORON : Nat := 0x13
def ST7735_INVOFF : Nat := 0x20
def ST7735_DISPON : Nat := 0x29
def ST7735_CASET : Nat := 0x2A
def ST7735_RASET : Nat := 0x2B
def ST7735_RAMWR : Nat := 0x2C
def ST7735_MADCTL : Nat := 0x36
def ST7735_COLMOD : Nat := 0x3A
def ST7735_FRMCTR1 : Nat := 0xB1
def ST7735_FRMCTR2 : Nat := 0xB2
def ST7735_FRMCTR3 : Nat := 0xB3
def ST7735_INVCTR : Nat := 0xB4
def ST7735_PWCTR1 : Nat := 0xC0
def ST7735_PWCTR2 : Nat := 0xC1
def ST7735_PWCTR3 : Nat := 0xC2
def ST7735_PWCTR4 : Nat := 0xC3
def ST7735_PWCTR5 : Nat := 0xC4
def ST7735_VMCTR1 : Nat := 0xC5
def ST7735_GMCTRP1 : Nat := 0xE0
def ST7735_GMCTRN1 : Nat := 0xE1

/-- Modelled from the spec: panel-variant selectors from the missing
`ST7735.h` (standard values 0, 1, 2; the code only compares `options`
against them, so only distinctness matters). -/
def INITR_GREENTAB : Nat := 0x0
def INITR_REDTAB : Nat := 0x1
def INITR_BLACKTAB : Nat := 0x2

/-- `#define DELAY 0x80` (ST7735.c line 34): high bit of the
argument-count byte flags a trailing delay byte. -/
def DELAY : Nat := 0x80

/-- MADCTL bit flags, ST7735.c lines 314-320. -/
def MADCTL_MY : Nat := 0x80
def MADCTL_MX : Nat := 0x40
def MADCTL_MV : Nat := 0x20
def MADCTL_ML : Nat := 0x10
def MADCTL_RGB : Nat := 0x00
def MADCTL_BGR : Nat := 0x08
def MADCTL_MH : Nat := 0x04

/-- The table `Rcmd1` (ST7735.c lines 96-133): init for 7735R part 1,
red or green tab. -/
def Rcmd1 : List Nat :=
  [15,
   ST7735_SWRESET, DELAY, 150,
   ST7735_SLPOUT, DELAY, 255,
   ST7735_FRMCTR1, 3, 0x01, 0x2C, 0x2D,
   ST7735_FRMCTR2, 3, 0x01, 0x2C, 0x2D,
   ST7735_FRMCTR3, 6, 0x01, 0x2C, 0x2D, 0x01, 0x2C, 0x2D,
   ST7735_INVCTR, 1, 0x07,
   ST7735_PWCTR1, 3, 0xA2, 0x02, 0x84,
   ST7735_PWCTR2, 1, 0xC5,
   ST7735_PWCTR3, 2, 0x0A, 0x00,
   ST7735_PWCTR4, 2, 0x8A, 0x2A,
   ST7735_PWCTR5, 2, 0x8A, 0xEE,
   ST7735_VMCTR1, 1, 0x0E,
   ST7735_INVOFF, 0,
   ST7735_MADCTL, 1, 0xC0,
   ST7735_COLMOD, 1 + DELAY, 0x05, 10]

/-- The table `Rcmd2green` (ST7735.c lines 135-143): init part 2,
green tab only. -/
def Rcmd2green : List Nat :=
  [2,
   ST7735_CASET, 4, 0x00, 0x02, 0x00, 0x7F + 0x02,
   ST7735_RASET, 4, 0x00, 0x01, 0x00, 0x9F + 0x01]

/-- The table `Rcmd2red` (ST7735.c lines 145-153): init part 2,
red tab only. -/
def Rcmd2red : List Nat :=
  [2,
   ST7735_CASET, 4, 0x00, 0x00, 0x00, 0x7F,
   ST7735_RASET, 4, 0x00, 0x00, 0x00, 0x9F]

/-- The table `Rcmd3` (ST7735.c lines 155-171): init part 3,
red or green tab. -/
def Rcmd3 : List Nat :=
  [4,
   ST7735_GMCTRP1, 16,
   0x02, 0x1c, 0x07, 0x12, 0x37, 0x32, 0x29, 0x2d,
   0x29, 0x25, 0x2B, 0x39, 0x00, 0x01, 0x03, 0x10,
   ST7735_GMCTRN1, 16,
   0x03, 0x1d, 0x07, 0x06, 0x2E, 0x2C, 0x29, 0x2D,
   0x2E, 0x2E, 0x37, 0x3F, 0x00, 0x00, 0x02, 0x10,
   ST7735_NORON, DELAY, 10,
   ST7735_DISPON, DELAY, 100]

/-- The `while(numCommands--)` loop body of `commandList` (ST7735.c lines
179-192), with the remaining command count as the first argument.  Per
command: issue the opcode; read the control byte (`numArgs & DELAY` flags
a trailing delay, `numArgs &= ~DELAY` masks it out); issue that many
argument bytes; if flagged, read the delay byte, mapping the sentinel 255
to 500 ms.  A table exhausted mid-command stops the replay (the C would
read out of bounds; the embedded tables never do). -/
def runCmds : Nat → List Nat → List Ev
  | 0, _ => []
  | _ + 1, [] => []
  | n + 1, c :: rest =>
    match rest with
    | [] => [Ev.cmd c]
    | ctrl :: rest2 =>
      let numArgs := ctrl &&& 0x7F
      let args := rest2.take numArgs
      let rest3 := rest2.drop numArgs
      Ev.cmd c :: args.map Ev.data ++
        (if ctrl &&& DELAY ≠ 0 then
          match rest3 with
          | [] => []
          | d :: rest4 =>
            Ev.sleep (if d = 255 then 500 else d) :: runCmds n rest4
        else runCmds n rest3)

/-- `commandList` (ST7735.c lines 175-193): the first byte is the command
count, then that many encoded commands are replayed. -/
def commandList : List Nat → List Ev
  | [] => []
  | n :: rest => runCmds n rest

/-- `commonInit` (ST7735.c lines 196-211) with a command list: chip-select
low, then the hardware-reset branch (the `#else` of `LCD_SOFT_RESET`:
RST high / low / high with 500 ms settles), then replay the list. -/
def commonInit (cmdList : List Nat) : List Ev :=
  [Ev.cs0, Ev.rst1, Ev.sleep 500, Ev.rst0, Ev.sleep 500, Ev.rst1, Ev.sleep 500]
    ++ commandList cmdList

/-- The mutable globals of ST7735.c lines 24-27: `_width`, `_height`
(uint16_t) and `colstart`, `rowstart` (int, only ever 0, 1 or 2). -/
structure St where
  width : Nat
  height : Nat
  colstart : Nat
  rowstart : Nat
  deriving DecidableEq, Repr

/-- Startup values of the globals (ST7735.c lines 24-27):
`_width = ST7735_TFTWIDTH`, `_height = ST7735_TFTHEIGHT`,
`colstart = rowstart = 0`. -/
def initState : St :=
  { width := ST7735_TFTWIDTH, height := ST7735_TFTHEIGHT,
    colstart := 0, rowstart := 0 }

/-- Conversion of a C `int` value to `uint8_t`: the low byte
(two's-complement truncation; `Int.emod` is already non-negative). -/
def toU8 (v : Int) : Nat := (v % 256).toNat

/-- Narrowing of a C `int` value to `int16_t`
(two's-complement wrap into -32768..32767). -/
def toI16 (v : Int) : Int := (v + 32768) % 65536 - 32768

/-- Iteration count of C `while (w--) { ... }` for an `int16_t` `w`:
`w` iterations when `w > 0`, none when `w = 0`, and wrap-around through
the whole 16-bit range when `w < 0`. -/
def whileDecCount (w : Int) : Nat := (w % 65536).toNat

/-- `_st7735_setAddrWindow` (ST7735.c lines 241-255).  Arguments are
`uint8_t` values 0..255; the column/row offsets are added and the sums
sent as data bytes (low byte; high byte always 0). -/
def setAddrWindow (s : St) (x0 y0 x1 y1 : Nat) : List Ev :=
  [Ev.cmd ST7735_CASET,
   Ev.data 0x00, Ev.data ((x0 + s.colstart) % 256),
   Ev.data 0x00, Ev.data ((x1 + s.colstart) % 256),
   Ev.cmd ST7735_RASET,
   Ev.data 0x00, Ev.data ((y0 + s.rowstart) % 256),
   Ev.data 0x00, Ev.data ((y1 + s.rowstart) % 256),
   Ev.cmd ST7735_RAMWR]

/-- `_st7735_pushColor` (ST7735.c lines 257-260): high byte of the 16-bit
color first, then the low byte. -/
def pushColor (color : Nat) : List Ev :=
  [Ev.data (color % 65536 / 256), Ev.data (color % 256)]

/-- `n` consecutive `pushColor` calls. -/
def pushN : Nat → Nat → List Ev
  | 0, _ => []
  | n + 1, c => pushColor c ++ pushN n c

/-- `_st7735_drawPixel` (ST7735.c lines 263-269): full four-way bounds
check, then a window from `(x, y)` to `(x+1, y+1)` and one color push. -/
def drawPixel (s : St) (x y : Int) (color : Nat) : List Ev :=
  if x < 0 ∨ (s.width : Int) ≤ x ∨ y < 0 ∨ (s.height : Int) ≤ y then []
  else
    setAddrWindow s (toU8 x) (toU8 y) (toU8 (x + 1)) (toU8 (y + 1))
      ++ pushColor color

/-- `_st7735_drawFastVLine` (ST7735.c lines 271-279): rudimentary clipping
(`x >= _width || y >= _height` only), clamp `h` to `_height - y` when the
extent overflows (`int16_t` narrowing on the assignment), then a 1-wide
window and `while (h--)` color pushes. -/
def drawFastVLine (s : St) (x y h : Int) (color : Nat) : List Ev :=
  if (s.width : Int) ≤ x ∨ (s.height : Int) ≤ y then []
  else
    let h' := if (s.height : Int) ≤ y + h - 1 then toI16 ((s.height : Int) - y) else h
    setAddrWindow s (toU8 x) (toU8 y) (toU8 x) (toU8 (y + h' - 1))
      ++ pushN (whileDecCount h') color

/-- `_st7735_drawFastHLine` (ST7735.c lines 281-289): rudimentary clipping
(`x >= _width || y >= _height` only), clamp `w` to `_width - x` when the
extent overflows (`int16_t` narrowing on the assignment), then a 1-tall
window and `while (w--)` color pushes. -/
def drawFastHLine (s : St) (x y w : Int) (color : Nat) : List Ev :=
  if (s.width : Int) ≤ x ∨ (s.height : Int) ≤ y then []
  else
    let w' := if (s.width : Int) ≤ x + w - 1 then toI16 ((s.width : Int) - x) else w
    setAddrWindow s (toU8 x) (toU8 y) (toU8 (x + w' - 1)) (toU8 y)
      ++ pushN (whileDecCount w') color

/-- `_st7735_fillRect` (ST7735.c lines 296-307): rudimentary clipping
(`x >= _width || y >= _height` only), clamp `w` and `h` independently
(`int16_t` narrowing on the assignments), one window, then nested
`for (y = h; y > 0; y--) for (x = w; x > 0; x--)` color pushes. -/
def fillRect (s : St) (x y w h : Int) (color : Nat) : List Ev :=
  if (s.width : Int) ≤ x ∨ (s.height : Int) ≤ y then []
  else
    let w' := if (s.width : Int) ≤ x + w - 1 then toI16 ((s.width : Int) - x) else w
    let h' := if (s.height : Int) ≤ y + h - 1 then toI16 ((s.height : Int) - y) else h
    setAddrWindow s (toU8 x) (toU8 y) (toU8 (x + w' - 1)) (toU8 (y + h' - 1))
      ++ pushN (h'.toNat * w'.toNat) color

/-- `_st7735_fillScreen` (ST7735.c lines 291-293):
`fillRect(0, 0, _width, _height, color)`, the `uint16_t` globals narrowed
to the `int16_t` parameters. -/
def fillScreen (s : St) (color : Nat) : List Ev :=
  fillRect s 0 0 (toI16 (s.width : Int)) (toI16 (s.height : Int)) color

/-- `_st7735_setRotation` (ST7735.c lines 322-350): `rotation = m % 4` on
the `uint8_t` argument; the MADCTL command byte is sent before the switch;
each case sends one MADCTL data byte and sets `_width`/`_height`; the
(unreachable) default returns with no data byte and no size change. -/
def setRotation (s : St) (m : Nat) : St × List Ev :=
  let rotation := m % 256 % 4
  let rest : St × List Ev :=
    match rotation with
    | 0 => ({ s with width := ST7735_TFTWIDTH, height := ST7735_TFTHEIGHT },
            [Ev.data (MADCTL_MX ||| MADCTL_MY ||| MADCTL_RGB)])
    | 1 => ({ s with width := ST7735_TFTHEIGHT, height := ST7735_TFTWIDTH },
            [Ev.data (MADCTL_MY ||| MADCTL_MV ||| MADCTL_RGB)])
    | 2 => ({ s with width := ST7735_TFTWIDTH, height := ST7735_TFTHEIGHT },
            [Ev.data MADCTL_RGB])
    | 3 => ({ s with width := ST7735_TFTHEIGHT, height := ST7735_TFTWIDTH },
            [Ev.data (MADCTL_MX ||| MADCTL_MV ||| MADCTL_RGB)])
    | _ + 4 => (s, [])
  (rest.1, Ev.cmd ST7735_MADCTL :: rest.2)

/-- `_st7735_initR` (ST7735.c lines 220-238): 50 ms delay, `commonInit`
with `Rcmd1`; for the green tab `Rcmd2green` and offsets 2/1, otherwise
`Rcmd2red` with offsets left at 0; then `Rcmd3`; for the black tab one
extra MADCTL command/data pair. -/
def initR (s : St) (options : Nat) : St × List Ev :=
  let opt := options % 256
  let pre := Ev.sleep 50 :: commonInit Rcmd1
  let mid : St × List Ev :=
    if opt = INITR_GREENTAB then
      ({ s with colstart := 2, rowstart := 1 }, commandList Rcmd2green)
    else (s, commandList Rcmd2red)
  let post :=
    if opt = INITR_BLACKTAB then [Ev.cmd ST7735_MADCTL, Ev.data 0xC0] else []
  (mid.1, pre ++ mid.2 ++ commandList Rcmd3 ++ post)

/-- The post-initialization public API surface (spec section 6), one
constructor per operation. -/
inductive Op where
  | rot (m : Nat)
  | window (x0 y0 x1 y1 : Nat)
  | pixel (x y : Int) (c : Nat)
  | hline (x y w : Int) (c : Nat)
  | vline (x y h : Int) (c : Nat)
  | rect (x y w h : Int) (c : Nat)
  | fillS (c : Nat)
  | push (c : Nat)
  | getWidth
  | getHeight

/-- One API call: the state after it and the trace it emits.  Only
`setRotation` writes any global; `get_width`/`get_height` emit nothing. -/
def step (s : St) : Op → St × List Ev
  | Op.rot m => setRotation s m
  | Op.window x0 y0 x1 y1 =>
      (s, setAddrWindow s (x0 % 256) (y0 % 256) (x1 % 256) (y1 % 256))
  | Op.pixel x y c => (s, drawPixel s x y c)
  | Op.hline x y w c => (s, drawFastHLine s x y w c)
  | Op.vline x y h c => (s, drawFastVLine s x y h c)
  | Op.rect x y w h c => (s, fillRect s x y w h c)
  | Op.fillS c => (s, fillScreen s c)
  | Op.push c => (s, pushColor c)
  | Op.getWidth => (s, [])
  | Op.getHeight => (s, [])

/-- True of a data event. -/
def isData : Ev → Bool
  | Ev.data _ => true
  | _ => false

/-- True of a command event. -/
def isCmd : Ev → Bool
  | Ev.cmd _ => true
  | _ => false

/-- Number of data bytes in a trace. -/
def countData (tr : List Ev) : Nat := (tr.filter isData).length

/-- Number of command bytes in a trace. -/
def countCmd (tr : List Ev) : Nat := (tr.filter isCmd).length

/-- The data byte immediately following the first occurrence of command
byte `c` in a trace. -/
def dataAfterCmd (c : Nat) : List Ev → Option Nat
  | [] => none
  | Ev.cmd c' :: rest =>
    if c' = c then
      match rest with
      | Ev.data b :: _ => some b
      | _ => none
    else dataAfterCmd c rest
  | _ :: rest => dataAfterCmd c rest

end ST7735

namespace ST7735

/-! ### Helper lemmas -/

/-- Data-byte count of `n` color pushes: two bytes per push. -/
theorem countData_pushN (n c : Nat) : countData (pushN n c) = 2 * n := by
  induction n with
  | zero => rfl
  | succ k ih =>
      simp only [pushN, countData, pushColor, List.filter_append, List.length_append] at ih ⊢
      simp [isData, List.filter, ih]
      omega

/-- Command-byte count of `n` color pushes: none. -/
theorem countCmd_pushN (n c : Nat) : countCmd (pushN n c) = 0 := by
  induction n with
  | zero => rfl
  | succ k ih =>
      simp only [pushN, pushColor, countCmd, List.filter_append, List.length_append] at ih ⊢
      simp [isCmd, List.filter, ih]

/-- `int` values representable in `int16_t` are unchanged by the narrowing. -/
theorem toI16_of_small (v : Int) (h0 : -32768 ≤ v) (h1 : v ≤ 32767) : toI16 v = v := by
  unfold toI16
  omega

/-- Positive `int16_t` loop bounds make `while (w--)` run exactly `w` times. -/
theorem whileDecCount_of_pos (v : Int) (h0 : 0 ≤ v) (h1 : v < 65536) :
    whileDecCount v = v.toNat := by
  unfold whileDecCount
  omega

/-! ### C8: GreenTab offsets and the pixel scenario -/

/-- C8: after GreenTab initialization `col_offset = 2` and `row_offset = 1`,
and `draw_pixel(0, 0, 0xF800)` emits a column-address-set starting at 2, a
row-address-set starting at 1, then the data bytes 0xF8 and 0x00. -/
theorem initR_green_drawPixel_scenario :
    (initR initState INITR_GREENTAB).1.colstart = 2 ∧
    (initR initState INITR_GREENTAB).1.rowstart = 1 ∧
    drawPixel (initR initState INITR_GREENTAB).1 0 0 0xF800
      = [Ev.cmd ST7735_CASET, Ev.data 0x00, Ev.data 2, Ev.data 0x00, Ev.data 3,
         Ev.cmd ST7735_RASET, Ev.data 0x00, Ev.data 1, Ev.data 0x00, Ev.data 2,
         Ev.cmd ST7735_RAMWR, Ev.data 0xF8, Ev.data 0x00] := by
  decide

/-! ### C2: the BlackTab extra MADCTL pair -/

/-- The claim as stated: BlackTab initialization appends to the red-tab
trace exactly one MADCTL command/data pair whose data byte is the Rcmd1
MADCTL byte with the color-order bit (`MADCTL_BGR`) inverted. -/
def blackTabInvertsColorOrder : Prop :=
  ∃ b1 b2 : Nat,
    dataAfterCmd ST7735_MADCTL (commandList Rcmd1) = some b1 ∧
    (initR initState INITR_BLACKTAB).2
      = (initR initState INITR_REDTAB).2 ++ [Ev.cmd ST7735_MADCTL, Ev.data b2] ∧
    b2 = b1 ^^^ MADCTL_BGR

/-- C2 counterexample: the extra MADCTL data byte is 0xC0, identical to the
0xC0 sent during Rcmd1, so the color-order bit is not inverted. -/
theorem blackTab_does_not_invert_color_order : ¬ blackTabInvertsColorOrder := by
  rintro ⟨b1, b2, h1, h2, h3⟩
  have e1 : dataAfterCmd ST7735_MADCTL (commandList Rcmd1) = some 0xC0 := by decide
  rw [e1] at h1
  have hb1 : b1 = 0xC0 := (Option.some.injEq _ _).mp h1.symm
  have e2 : (initR initState INITR_BLACKTAB).2
      = (initR initState INITR_REDTAB).2 ++ [Ev.cmd ST7735_MADCTL, Ev.data 0xC0] := by
    decide
  rw [e2] at h2
  have h2' := List.append_cancel_left h2
  have hb2 : b2 = 0xC0 := by
    have := List.head_eq_of_cons_eq (List.tail_eq_of_cons_eq h2')
    exact (Ev.data.injEq _ _).mp this.symm
  rw [hb1, hb2] at h3
  exact absurd h3 (by decide)

/-- C2 amended: BlackTab performs the red-tab-style initialization (same
trace, offsets left at 0) and then issues exactly one extra MADCTL
command/data pair whose data byte equals the Rcmd1 MADCTL byte (0xC0):
the color-order bit is left unchanged. -/
theorem initR_blackTab_extra_madctl :
    (initR initState INITR_BLACKTAB).2
      = (initR initState INITR_REDTAB).2 ++ [Ev.cmd ST7735_MADCTL, Ev.data 0xC0] ∧
    (initR initState INITR_BLACKTAB).1.colstart = 0 ∧
    (initR initState INITR_BLACKTAB).1.rowstart = 0 ∧
    dataAfterCmd ST7735_MADCTL (commandList Rcmd1) = some 0xC0 := by
  refine ⟨by decide, by decide, by decide, by decide⟩

end ST7735

namespace ST7735

/-! ### C1: the pixel address window -/

/-- C1 counterexample: for the in-bounds call `draw_pixel(0, 0, 0)` the
emitted trace is not a window whose start and end are both `(0, 0)` — the
code passes `(x+1, y+1)` as the window end. -/
theorem drawPixel_window_not_1x1 :
    ¬ (drawPixel initState 0 0 0
        = setAddrWindow initState (toU8 0) (toU8 0) (toU8 0) (toU8 0) ++ pushColor 0) := by
  decide

/-- C1 amended: an in-bounds `draw_pixel(x, y, color)` sets an address
window whose start is `(x, y)` and whose end is `(x+1, y+1)` (before
offset adjustment), then streams exactly one color value: two data bytes
and no command byte. -/
theorem drawPixel_inbounds_trace (s : St) (x y : Int) (c : Nat)
    (hx0 : 0 ≤ x) (hx : x < (s.width : Int))
    (hy0 : 0 ≤ y) (hy : y < (s.height : Int)) :
    drawPixel s x y c
      = setAddrWindow s (toU8 x) (toU8 y) (toU8 (x + 1)) (toU8 (y + 1)) ++ pushColor c
    ∧ countData (pushColor c) = 2 ∧ countCmd (pushColor c) = 0 := by
  refine ⟨?_, rfl, rfl⟩
  rw [drawPixel, if_neg]
  push_neg
  exact ⟨hx0, hx, hy0, hy⟩

/-- C1 witness: the amended theorem at `s = initState`, `(x, y) = (3, 4)`,
color 0x1234. -/
theorem drawPixel_inbounds_trace_witness :
    drawPixel initState 3 4 0x1234
      = setAddrWindow initState (toU8 3) (toU8 4) (toU8 (3 + 1)) (toU8 (4 + 1))
          ++ pushColor 0x1234
    ∧ countData (pushColor 0x1234) = 2 ∧ countCmd (pushColor 0x1234) = 0 :=
  drawPixel_inbounds_trace initState 3 4 0x1234 (by decide) (by decide)
    (by decide) (by decide)

/-! ### C3: skip-on-out-of-bounds policy -/

/-- C3 counterexample: `draw_fast_hline` with starting coordinate
`x = -1 < 0` is not skipped — it emits a non-empty trace, because the
rudimentary clipping only checks `x >= _width || y >= _height`. -/
theorem drawFastHLine_negative_start_not_skipped :
    ¬ (drawFastHLine initState (-1) 0 1 0 = []) := by
  decide

/-- C3 amended: `draw_pixel` is skipped (zero bytes) exactly when
`x < 0`, `x ≥ logical_width`, `y < 0` or `y ≥ logical_height`, but
`draw_fast_hline`, `draw_fast_vline` and `fill_rect` are skipped exactly
when `x ≥ logical_width` or `y ≥ logical_height`: negative starting
coordinates do not cause a skip there. -/
theorem primitives_skip_iff (s : St) (x y w h : Int) (c : Nat) :
    (drawPixel s x y c = []
      ↔ (x < 0 ∨ (s.width : Int) ≤ x ∨ y < 0 ∨ (s.height : Int) ≤ y))
    ∧ (drawFastHLine s x y w c = [] ↔ ((s.width : Int) ≤ x ∨ (s.height : Int) ≤ y))
    ∧ (drawFastVLine s x y h c = [] ↔ ((s.width : Int) ≤ x ∨ (s.height : Int) ≤ y))
    ∧ (fillRect s x y w h c = [] ↔ ((s.width : Int) ≤ x ∨ (s.height : Int) ≤ y)) := by
  refine ⟨?_, ?_, ?_, ?_⟩
  · by_cases hc : x < 0 ∨ (s.width : Int) ≤ x ∨ y < 0 ∨ (s.height : Int) ≤ y <;>
      simp [drawPixel, hc, setAddrWindow]
  · by_cases hc : (s.width : Int) ≤ x ∨ (s.height : Int) ≤ y <;>
      simp [drawFastHLine, hc, setAddrWindow]
  · by_cases hc : (s.width : Int) ≤ x ∨ (s.height : Int) ≤ y <;>
      simp [drawFastVLine, hc, setAddrWindow]
  · by_cases hc : (s.width : Int) ≤ x ∨ (s.height : Int) ≤ y <;>
      simp [fillRect, hc, setAddrWindow]

/-! ### C4: the post-command delay sentinel -/

/-- Unpacking the control byte for an argument count below 128 with the
delay flag set. -/
theorem ctrl_byte_unpack : ∀ l < 128, (l + 128) &&& 0x7F = l ∧ (l + 128) &&& 0x80 = 128 := by
  decide

/-- C4: one sequencer step on an encoded command with delay flag set:
the opcode is issued, each argument byte is issued, and the delay byte
`d` produces a sleep of 500 ms when `d = 255` and of exactly `d`
milliseconds otherwise (including `d = 0`), before the remaining commands
are replayed. -/
theorem runCmds_delay_sentinel (n c d : Nat) (args rest : List Nat)
    (hlen : args.length ≤ 127) :
    runCmds (n + 1) (c :: (args.length + 128) :: (args ++ d :: rest))
      = Ev.cmd c :: args.map Ev.data
          ++ (Ev.sleep (if d = 255 then 500 else d) :: runCmds n rest) := by
  have h := ctrl_byte_unpack args.length (by omega)
  rw [runCmds]
  simp only [DELAY, h.1, h.2, List.take_left, List.drop_left]
  simp

/-- C4 witness: the theorem at a one-argument command with the sentinel
delay byte 255, replaying to a 500 ms sleep. -/
theorem runCmds_delay_sentinel_witness :
    runCmds (0 + 1) (0x2A :: (([5] : List Nat).length + 128) :: ([5] ++ 255 :: []))
      = Ev.cmd 0x2A :: ([5] : List Nat).map Ev.data
          ++ (Ev.sleep (if 255 = 255 then 500 else 255) :: runCmds 0 []) :=
  runCmds_delay_sentinel 0 0x2A 255 [5] [] (by decide)

end ST7735

namespace ST7735

/-! ### C5 and C10: rotation -/

/-- C5: `set_rotation(m)` and `set_rotation(m+4)` are indistinguishable
(same resulting state, including logical width/height, and same emitted
bytes); the effective rotation is `m mod 4`, and the logical dimensions
are the native pair swapped exactly for effective rotations 1 and 3. -/
theorem setRotation_mod4 (s : St) (m : Nat) :
    setRotation s (m + 4) = setRotation s m
    ∧ ((setRotation s m).1.width, (setRotation s m).1.height)
        = (if m % 4 = 1 ∨ m % 4 = 3 then (ST7735_TFTHEIGHT, ST7735_TFTWIDTH)
           else (ST7735_TFTWIDTH, ST7735_TFTHEIGHT)) := by
  have hmod : (m + 4) % 256 % 4 = m % 256 % 4 := by omega
  constructor
  · rw [setRotation, setRotation, hmod]
  · have h4 : m % 256 % 4 = m % 4 := by omega
    have : m % 4 = 0 ∨ m % 4 = 1 ∨ m % 4 = 2 ∨ m % 4 = 3 := by omega
    rcases this with h | h | h | h <;> simp [setRotation, h4, h]

/-- C10: for every argument `m`, `set_rotation(m)` emits exactly one
MADCTL command byte followed by exactly one data byte — the switch's
default branch is unreachable since `m mod 4 < 4`. -/
theorem setRotation_emits_cmd_data (s : St) (m : Nat) :
    ∃ b, (setRotation s m).2 = [Ev.cmd ST7735_MADCTL, Ev.data b] := by
  have : m % 256 % 4 = 0 ∨ m % 256 % 4 = 1 ∨ m % 256 % 4 = 2 ∨ m % 256 % 4 = 3 := by
    omega
  rcases this with h | h | h | h
  · exact ⟨MADCTL_MX ||| MADCTL_MY ||| MADCTL_RGB, by simp [setRotation, h]⟩
  · exact ⟨MADCTL_MY ||| MADCTL_MV ||| MADCTL_RGB, by simp [setRotation, h]⟩
  · exact ⟨MADCTL_RGB, by simp [setRotation, h]⟩
  · exact ⟨MADCTL_MX ||| MADCTL_MV ||| MADCTL_RGB, by simp [setRotation, h]⟩

/-! ### C9: offsets fixed after initialization -/

/-- C9: no public operation after initialization (`set_rotation`,
`set_address_window`, any drawing primitive, `push_color`, `get_width`,
`get_height`) modifies `col_offset` or `row_offset`. -/
theorem step_preserves_offsets (s : St) (op : Op) :
    (step s op).1.colstart = s.colstart ∧ (step s op).1.rowstart = s.rowstart := by
  cases op with
  | rot m =>
      have : m % 256 % 4 = 0 ∨ m % 256 % 4 = 1 ∨ m % 256 % 4 = 2 ∨ m % 256 % 4 = 3 := by
        omega
      rcases this with h | h | h | h <;> simp [step, setRotation, h]
  | window x0 y0 x1 y1 => exact ⟨rfl, rfl⟩
  | pixel x y c => exact ⟨rfl, rfl⟩
  | hline x y w c => exact ⟨rfl, rfl⟩
  | vline x y h c => exact ⟨rfl, rfl⟩
  | rect x y w h c => exact ⟨rfl, rfl⟩
  | fillS c => exact ⟨rfl, rfl⟩
  | push c => exact ⟨rfl, rfl⟩
  | getWidth => exact ⟨rfl, rfl⟩
  | getHeight => exact ⟨rfl, rfl⟩

end ST7735

namespace ST7735

/-! ### C6: fill_screen byte counts -/

/-- C6: `fill_screen(color)` is one address-window setup — a trace with
exactly 3 command bytes of which the last is the memory-write
(write-enable) command `RAMWR`, and exactly 8 data bytes — followed by
exactly `logical_width * logical_height` color pushes of two data bytes
each (and no command bytes). -/
theorem fillScreen_trace (s : St) (c : Nat)
    (hw1 : 1 ≤ s.width) (hw2 : s.width ≤ 32767)
    (hh1 : 1 ≤ s.height) (hh2 : s.height ≤ 32767) :
    fillScreen s c
      = setAddrWindow s (toU8 0) (toU8 0) (toU8 ((s.width : Int) - 1))
          (toU8 ((s.height : Int) - 1))
        ++ pushN (s.width * s.height) c
    ∧ countCmd (setAddrWindow s (toU8 0) (toU8 0) (toU8 ((s.width : Int) - 1))
        (toU8 ((s.height : Int) - 1))) = 3
    ∧ countData (setAddrWindow s (toU8 0) (toU8 0) (toU8 ((s.width : Int) - 1))
        (toU8 ((s.height : Int) - 1))) = 8
    ∧ (setAddrWindow s (toU8 0) (toU8 0) (toU8 ((s.width : Int) - 1))
        (toU8 ((s.height : Int) - 1))).getLast? = some (Ev.cmd ST7735_RAMWR)
    ∧ countData (pushN (s.width * s.height) c) = 2 * (s.width * s.height)
    ∧ countCmd (pushN (s.width * s.height) c) = 0 := by
  refine ⟨?_, rfl, rfl, rfl, countData_pushN _ _, countCmd_pushN _ _⟩
  have hti : toI16 (s.width : Int) = (s.width : Int) := toI16_of_small _ (by omega) (by omega)
  have hti2 : toI16 (s.height : Int) = (s.height : Int) := toI16_of_small _ (by omega) (by omega)
  have hg : ¬ ((s.width : Int) ≤ 0 ∨ (s.height : Int) ≤ 0) := by
    push_neg
    constructor <;> omega
  have hcW : ¬ ((s.width : Int) ≤ 0 + (s.width : Int) - 1) := by omega
  have hcH : ¬ ((s.height : Int) ≤ 0 + (s.height : Int) - 1) := by omega
  have e1 : (0 : Int) + (s.width : Int) - 1 = (s.width : Int) - 1 := by ring
  have e2 : (0 : Int) + (s.height : Int) - 1 = (s.height : Int) - 1 := by ring
  simp only [fillScreen, fillRect, hti, hti2]
  rw [if_neg hg, if_neg hcW, if_neg hcH, e1, e2, Int.toNat_ofNat, Int.toNat_ofNat,
    Nat.mul_comm]

/-! ### C7: horizontal overflow clamping -/

/-- C7: for an in-bounds start whose horizontal extent overflows
(`x + w - 1 ≥ logical_width`), `draw_fast_hline` emits a window whose x1
is `logical_width - 1` and pushes exactly the clamped width
`logical_width - x` colors, and `fill_rect` emits the same clamped x1 and
pushes the clamped width times the (independently clamped) height. -/
theorem hline_fillRect_clamp (s : St) (x y w h : Int) (c : Nat)
    (hw2 : s.width ≤ 32767) (hh2 : s.height ≤ 32767)
    (hx0 : 0 ≤ x) (hx : x < (s.width : Int))
    (hy0 : 0 ≤ y) (hy : y < (s.height : Int))
    (hover : (s.width : Int) ≤ x + w - 1) :
    drawFastHLine s x y w c
      = setAddrWindow s (toU8 x) (toU8 y) (toU8 ((s.width : Int) - 1)) (toU8 y)
          ++ pushN ((s.width : Int) - x).toNat c
    ∧ fillRect s x y w h c
      = setAddrWindow s (toU8 x) (toU8 y) (toU8 ((s.width : Int) - 1))
          (toU8 (y + (if (s.height : Int) ≤ y + h - 1 then (s.height : Int) - y else h) - 1))
          ++ pushN ((if (s.height : Int) ≤ y + h - 1 then (s.height : Int) - y else h).toNat
                    * ((s.width : Int) - x).toNat) c := by
  have ew : toI16 ((s.width : Int) - x) = (s.width : Int) - x :=
    toI16_of_small _ (by omega) (by omega)
  have eh : toI16 ((s.height : Int) - y) = (s.height : Int) - y :=
    toI16_of_small _ (by omega) (by omega)
  have ex : x + ((s.width : Int) - x) - 1 = (s.width : Int) - 1 := by ring
  have hg : ¬ ((s.width : Int) ≤ x ∨ (s.height : Int) ≤ y) := by
    push_neg
    exact ⟨hx, hy⟩
  constructor
  · simp only [drawFastHLine, ew]
    rw [if_neg hg, if_pos hover, whileDecCount_of_pos _ (by omega) (by omega), ex]
  · simp only [fillRect, ew, eh]
    rw [if_neg hg, if_pos hover, ex]

end ST7735

namespace ST7735

/-- C6 witness: the fill-screen trace theorem at the startup state
(128 x 160) with color 0xFFFF. -/
theorem fillScreen_trace_witness :
    fillScreen initState 0xFFFF
      = setAddrWindow initState (toU8 0) (toU8 0) (toU8 ((initState.width : Int) - 1))
          (toU8 ((initState.height : Int) - 1))
        ++ pushN (initState.width * initState.height) 0xFFFF
    ∧ countCmd (setAddrWindow initState (toU8 0) (toU8 0) (toU8 ((initState.width : Int) - 1))
        (toU8 ((initState.height : Int) - 1))) = 3
    ∧ countData (setAddrWindow initState (toU8 0) (toU8 0) (toU8 ((initState.width : Int) - 1))
        (toU8 ((initState.height : Int) - 1))) = 8
    ∧ (setAddrWindow initState (toU8 0) (toU8 0) (toU8 ((initState.width : Int) - 1))
        (toU8 ((initState.height : Int) - 1))).getLast? = some (Ev.cmd ST7735_RAMWR)
    ∧ countData (pushN (initState.width * initState.height) 0xFFFF)
        = 2 * (initState.width * initState.height)
    ∧ countCmd (pushN (initState.width * initState.height) 0xFFFF) = 0 :=
  fillScreen_trace initState 0xFFFF (by decide) (by decide) (by decide) (by decide)

/-- C7 witness: the clamping theorem at the startup state with
`x = 100`, `y = 10`, `w = 1000`, `h = 3`. -/
theorem hline_fillRect_clamp_witness :
    drawFastHLine initState 100 10 1000 0
      = setAddrWindow initState (toU8 100) (toU8 10) (toU8 ((initState.width : Int) - 1))
          (toU8 10)
          ++ pushN ((initState.width : Int) - 100).toNat 0
    ∧ fillRect initState 100 10 1000 3 0
      = setAddrWindow initState (toU8 100) (toU8 10) (toU8 ((initState.width : Int) - 1))
          (toU8 (10 + (if (initState.height : Int) ≤ 10 + 3 - 1
                       then (initState.height : Int) - 10 else 3) - 1))
          ++ pushN ((if (initState.height : Int) ≤ 10 + 3 - 1
                     then (initState.height : Int) - 10 else 3).toNat
                    * ((initState.width : Int) - 100).toNat) 0 :=
  hline_fillRect_clamp initState 100 10 1000 3 0 (by decide) (by decide) (by decide)
    (by decide) (by decide) (by decide) (by decide)

end ST7735
